import Mathlib

/-
Verification of the multi-provider AI generation service
(src/services/multi_ai_service.py) of the KE-ROMA-AI repository.

The Python module is embedded shallowly:
  * pure string manipulation (str.split, str.strip, str.lower, the re.search
    calls with their exact patterns) is translated into executable functions
    over List Char;
  * the external provider calls (OpenAI, Gemini, HuggingFace, Cohere), which
    either raise an exception or return a response text, are modelled by an
    environment function of type AIProvider -> Except String String, where
    `.error msg` stands for a raised exception with message `msg` and
    `.ok text` for a returned response body;
  * random.choice in the mock chat generator is modelled by an explicit
    natural-number draw supplied by the environment;
  * the process-wide provider-status dictionary is threaded explicitly as a
    state value (an insertion-ordered association list, like a Python dict);
  * datetime timestamps are modelled as an abstract Nat clock value supplied
    by the environment; wall-clock duration fields (generation_time) and the
    never-written quota_info field of the metadata dict are not modelled.
-/

/- ### Basic character/string helpers mirroring Python's str methods -/

/-- The characters Python's `str.strip()` and the regex class `\s` treat as
whitespace (ASCII range; the source data is ASCII). -/
def isPySpace (c : Char) : Bool :=
  c == ' ' || c == '\t' || c == '\n' || c == '\r' || c == '\x0c' || c == '\x0b'

/-- ASCII lowering of a character list, modelling Python's `str.lower()` on
ASCII data (Char.toLower lowers exactly the ASCII uppercase letters). -/
def lowerL (cs : List Char) : List Char := cs.map Char.toLower

/-- `str.lower()` on a Lean string. -/
def lowerS (s : String) : String := String.mk (lowerL s.data)

/-- Case-insensitive literal prefix test: `lit` is given in lowercase and is
compared against the lowered head of `cs`.  Models matching a literal regex
fragment under re.IGNORECASE. -/
def ciIsPrefixL : List Char → List Char → Bool
  | [], _ => true
  | _ :: _, [] => false
  | l :: ls, c :: cs => l == Char.toLower c && ciIsPrefixL ls cs

/-- Substring containment, modelling Python's `pat in s` (case-sensitive). -/
def containsSubL (pat : List Char) : List Char → Bool
  | [] => pat.isEmpty
  | c :: cs => pat.isPrefixOf (c :: cs) || containsSubL pat cs

/-- Python's `str.strip()`: drop leading and trailing whitespace. -/
def pyStripL (cs : List Char) : List Char :=
  ((cs.dropWhile isPySpace).reverse.dropWhile isPySpace).reverse

/-- The character list of a string literal. -/
def lChars (s : String) : List Char := s.data

/-- Python's `text.split("---")` (left-to-right, non-overlapping): the
accumulator holds the current segment reversed. -/
def splitDashesGo : List Char → List Char → List (List Char)
  | acc, '-' :: '-' :: '-' :: rest => acc.reverse :: splitDashesGo [] rest
  | acc, c :: rest => splitDashesGo (c :: acc) rest
  | acc, [] => [acc.reverse]

/-- Decimal value of a digit run, as Python's int() on the captured group. -/
def digitsVal (cs : List Char) : Nat :=
  cs.foldl (fun a c => a * 10 + (c.toNat - 48)) 0

/- ### The provider enumeration and ordering policy (AIProvider,
MultiAIService._fallback_order, MultiAIService._get_provider_order) -/

/-- The AIProvider enum of the source (five members). -/
inductive AIProvider where
  | openai
  | gemini
  | huggingface
  | cohere
  | mock
deriving DecidableEq

/-- The `.value` string of each enum member. -/
def AIProvider.value : AIProvider → String
  | .openai => "openai"
  | .gemini => "gemini"
  | .huggingface => "huggingface"
  | .cohere => "cohere"
  | .mock => "mock"

/-- The declaration order of the enum, which is the iteration order of
`for provider in AIProvider` in the source. -/
def allProviders : List AIProvider :=
  [.openai, .gemini, .huggingface, .cohere, .mock]

/-- MultiAIService._fallback_order. -/
def fallbackOrder : List AIProvider :=
  [.gemini, .openai, .huggingface, .cohere, .mock]

/-- The `AIProvider(string)` constructor: returns the member whose value
equals the string, and models the ValueError raised otherwise as `none`. -/
def providerOfString (s : String) : Option AIProvider :=
  if s = "openai" then some .openai
  else if s = "gemini" then some .gemini
  else if s = "huggingface" then some .huggingface
  else if s = "cohere" then some .cohere
  else if s = "mock" then some .mock
  else none

/-- MultiAIService._get_provider_order.  `preferred = none` models passing
None; the Python truthiness test `if preferred_provider:` is false for None
and for the empty string.  `defaultProvider` is the value of
os.getenv("DEFAULT_AI_PROVIDER", "gemini"). -/
def getProviderOrder (preferred : Option String) (defaultProvider : String) :
    List AIProvider :=
  let fromDefault :=
    match providerOfString (lowerS defaultProvider) with
    | some d => d :: fallbackOrder.filter (fun p => p ≠ d)
    | none => fallbackOrder
  match preferred with
  | some s =>
    if s = "" then fromDefault
    else
      match providerOfString (lowerS s) with
      | some p => p :: fallbackOrder.filter (fun q => q ≠ p)
      | none => fromDefault
  | none => fromDefault

/- ### Embeddings of the specific re.search calls of the parser.
Each pattern of the source is matched by a bespoke scanner whose semantics
follow Python's leftmost-match backtracking search for that exact pattern.
All patterns run under re.IGNORECASE, so label literals are stored lowercase
and compared case-insensitively. -/

/-- Match of `\s*(.+)` against a fixed suffix (Python semantics: greedy `\s*`
tried longest first, `.` excludes the newline, `(.+)` greedy).  When the
suffix is not all whitespace, the maximal whitespace run is skipped and the
group runs to the next newline or the end.  When the suffix is all
whitespace, the greedy `\s*` backtracks to the last character that is not a
newline, which then alone forms the group (everything after it is newlines);
if every character is a newline the match fails. -/
def matchSpacesLine (t : List Char) : Option (List Char) :=
  let r := t.dropWhile isPySpace
  if r.isEmpty then
    match ((t.reverse.dropWhile (fun c => c == '\n')).reverse).getLast? with
    | some c => some [c]
    | none => none
  else
    some (r.takeWhile (fun c => c != '\n'))

/-- Search for `LABEL:\s*(.+)` (re.IGNORECASE, no DOTALL): scan positions left
to right; at each position try each label alternative in order (the colon is
part of the stored literal; at most one alternative can match at a given
position), then `\s*(.+)`; on failure resume the scan one character on.
Returns the captured group. -/
def searchLabelLineGo (labels : List (List Char)) : List Char → Option (List Char)
  | [] => none
  | c :: cs =>
    match labels.findSome? (fun lab =>
        if ciIsPrefixL lab (c :: cs) then some ((c :: cs).drop lab.length) else none) with
    | some rest =>
      match matchSpacesLine rest with
      | some g => some g
      | none => searchLabelLineGo labels cs
    | none => searchLabelLineGo labels cs

/-- The lazy group of `(.*?)(?=ALT1:|...|$)` under re.DOTALL: consume
characters (newlines included) until some lookahead alternative matches at
the current position, or the position is the end of the text, or exactly one
character — a final newline — remains (Python's `$` matches there).  The
alternatives begin with letters, so the lookahead can never fire strictly
inside the whitespace skipped by a preceding greedy `\s*`, and `$` always
matches at the end, so the overall match never fails and the greedy `\s*`
never backtracks. -/
def lazyUntil (alts : List (List Char)) : List Char → List Char
  | [] => []
  | c :: cs =>
    if alts.any (fun a => ciIsPrefixL a (c :: cs)) then []
    else if c == '\n' && cs.isEmpty then []
    else c :: lazyUntil alts cs

/-- Search for `LABEL:\s*(.*?)(?=ALTS|$)` under re.IGNORECASE | re.DOTALL. -/
def searchLabelBlockGo (labels : List (List Char)) (alts : List (List Char)) :
    List Char → Option (List Char)
  | [] => none
  | c :: cs =>
    match labels.findSome? (fun lab =>
        if ciIsPrefixL lab (c :: cs) then some ((c :: cs).drop lab.length) else none) with
    | some rest => some (lazyUntil alts (rest.dropWhile isPySpace))
    | none => searchLabelBlockGo labels alts cs

/-- The lazy group of `(.*?)(?=ALTS|$)` WITHOUT re.DOTALL: as lazyUntil, but
`.` cannot consume a newline, so reaching a newline that is neither at a
lookahead position nor the final character fails the match at this start
position (shortening the preceding greedy `\s*` cannot help: the skipped
characters are whitespace, no alternative starts with whitespace, and `$`
only matches at the end positions). -/
def lazyUntilNoNl (alts : List (List Char)) : List Char → Option (List Char)
  | [] => some []
  | c :: cs =>
    if alts.any (fun a => ciIsPrefixL a (c :: cs)) then some []
    else if c == '\n' && cs.isEmpty then some []
    else if c == '\n' then none
    else
      match lazyUntilNoNl alts cs with
      | some g => some (c :: g)
      | none => none

/-- Search for `LABEL:\s*(.*?)(?=ALTS|$)` under re.IGNORECASE only (no
DOTALL); on a failed start position the scan resumes one character on. -/
def searchLabelLineStopGo (labels : List (List Char)) (alts : List (List Char)) :
    List Char → Option (List Char)
  | [] => none
  | c :: cs =>
    match labels.findSome? (fun lab =>
        if ciIsPrefixL lab (c :: cs) then some ((c :: cs).drop lab.length) else none) with
    | some rest =>
      match lazyUntilNoNl alts (rest.dropWhile isPySpace) with
      | some g => some g
      | none => searchLabelLineStopGo labels alts cs
    | none => searchLabelLineStopGo labels alts cs

/-- Search for `(\d+)\s*LIT` (re.IGNORECASE), e.g. `(\d+)\s*calories?`: at
each digit position the greedy `\d+` takes the maximal digit run (a shorter
run would leave a digit where `\s*` or the literal must match, so Python's
backtracking cannot shrink it), `\s*` skips the maximal whitespace run, and
the literal must follow.  The optional trailing `s?` of the source patterns
does not affect success or the captured group, so only the mandatory part of
the literal is stored.  Returns the digit run. -/
def findNumLitGo (lit : List Char) : List Char → Option (List Char)
  | [] => none
  | c :: cs =>
    if c.isDigit then
      let run := (c :: cs).takeWhile Char.isDigit
      let after := ((c :: cs).drop run.length).dropWhile isPySpace
      if ciIsPrefixL lit after then some run else findNumLitGo lit cs
    else findNumLitGo lit cs

/-- Search for `(\d+)g?\s*LIT` (re.IGNORECASE), e.g. `(\d+)g?\s*protein`: as
findNumLitGo, with the greedy optional `g` tried consumed-first. -/
def findNumOptGLitGo (lit : List Char) : List Char → Option (List Char)
  | [] => none
  | c :: cs =>
    if c.isDigit then
      let run := (c :: cs).takeWhile Char.isDigit
      let afterRun := (c :: cs).drop run.length
      let ok :=
        (match afterRun with
         | g0 :: rest =>
           (Char.toLower g0 == 'g' && ciIsPrefixL lit (rest.dropWhile isPySpace)) ||
             ciIsPrefixL lit (afterRun.dropWhile isPySpace)
         | [] => false)
      if ok then some run else findNumOptGLitGo lit cs
    else findNumOptGLitGo lit cs

/-- Python's `re.split(r'[-•\n]', text)`: cut at every bullet, dash or
newline character. -/
def splitMarksGo : List Char → List Char → List (List Char)
  | acc, [] => [acc.reverse]
  | acc, c :: cs =>
    if c == '-' || c == '•' || c == '\n' then acc.reverse :: splitMarksGo [] cs
    else splitMarksGo (c :: acc) cs

/-- Python's `re.split(r'[-•\n]|\d+\.', text)`: cut at every bullet, dash or
newline, and at every maximal digit run immediately followed by a dot (a
shorter run is followed by a digit, which matches neither the dot nor the
character class, so backtracking cannot produce a different cut). -/
def splitInstrGo (acc : List Char) (l : List Char) : List (List Char) :=
  match l with
  | [] => [acc.reverse]
  | c :: cs =>
    if c == '-' || c == '•' || c == '\n' then acc.reverse :: splitInstrGo [] cs
    else if c.isDigit then
      match h : ((c :: cs).drop (((c :: cs).takeWhile Char.isDigit).length)) with
      | '.' :: rest => acc.reverse :: splitInstrGo [] rest
      | _ => splitInstrGo (c :: acc) cs
    else splitInstrGo (c :: acc) cs
termination_by l.length
decreasing_by
  · simp
  · have hlen := congrArg List.length h
    simp [List.length_drop] at hlen
    simp
    omega
  · simp
  · simp

/- ### Structured recipe data (the dict built by _extract_recipe_data) -/

/-- A value of the nutrition dict: int for calories, str for the rest. -/
inductive JVal where
  | num (n : Nat)
  | str (s : String)
deriving DecidableEq

/-- The recipe dict built by MultiAIService._extract_recipe_data and by
MultiAIService._generate_mock_recipes.  `nutrition_info` is an
insertion-ordered key/value list mirroring the Python sub-dict, `none`
mirroring Python None. -/
structure Recipe where
  name : String
  origin : String
  ingredients : List String
  instructions : List String
  health_benefits : String
  cultural_context : String
  cooking_time : String
  nutrition_info : Option (List (String × JVal))
  tags : List String
deriving DecidableEq

/-- MultiAIService._parse_nutrition: three independent pattern extractions,
keys inserted in source order, missing patterns simply absent.  The patterns
are `(\d+)\s*calories?`, `(\d+)g?\s*protein` and `(\d+)g?\s*fiber`, all
IGNORECASE; protein and fiber values are rendered as f-string `{n}g`. -/
def parseNutritionL (t : List Char) : List (String × JVal) :=
  (match findNumLitGo (lChars "calorie") t with
   | some run => [("calories", JVal.num (digitsVal run))]
   | none => []) ++
  (match findNumOptGLitGo (lChars "protein") t with
   | some run => [("protein", JVal.str (String.mk run ++ "g"))]
   | none => []) ++
  (match findNumOptGLitGo (lChars "fiber") t with
   | some run => [("fiber", JVal.str (String.mk run ++ "g"))]
   | none => [])

/-- The list-comprehension cleanup applied to both split results:
`[x.strip() for x in pieces if x.strip()]`. -/
def cleanPieces (pieces : List (List Char)) : List String :=
  pieces.filterMap (fun p =>
    let s := pyStripL p
    if s.isEmpty then none else some (String.mk s))

/-- MultiAIService._extract_recipe_data: defaults first, then each labeled
field overwritten when its re.search pattern matches the segment text.  The
nutrition pattern is only tried for premium requests. -/
def extractRecipeData (t : List Char) (isPremium : Bool) : Recipe :=
  let nameV :=
    match searchLabelLineGo [lChars "recipe name:", lChars "name:"] t with
    | some g => String.mk (pyStripL g)
    | none => "African Recipe"
  let originV :=
    match searchLabelLineGo [lChars "origin:"] t with
    | some g => String.mk (pyStripL g)
    | none => "Africa"
  let ingredientsV :=
    match searchLabelBlockGo [lChars "ingredients:", lChars "ingredient:"]
        [lChars "instructions:", lChars "instruction:", lChars "health benefits:"] t with
    | some g => cleanPieces (splitMarksGo [] (pyStripL g))
    | none => []
  let instructionsV :=
    match searchLabelBlockGo [lChars "instructions:", lChars "instruction:"]
        [lChars "health benefits:", lChars "cultural context:", lChars "cooking time:"] t with
    | some g => cleanPieces (splitInstrGo [] (pyStripL g))
    | none => []
  let healthV :=
    match searchLabelBlockGo [lChars "health benefits:", lChars "health benefit:"]
        [lChars "cultural context:", lChars "cooking time:", lChars "nutrition info:"] t with
    | some g => String.mk (pyStripL g)
    | none => "Nutritious and delicious"
  let cultureV :=
    match searchLabelBlockGo [lChars "cultural context:"]
        [lChars "cooking time:", lChars "nutrition info:"] t with
    | some g => String.mk (pyStripL g)
    | none => "Traditional African cuisine"
  let timeV :=
    match searchLabelLineStopGo [lChars "cooking time:"] [lChars "nutrition info:"] t with
    | some g => String.mk (pyStripL g)
    | none => "30 minutes"
  let nutritionV :=
    if isPremium then
      match searchLabelBlockGo [lChars "nutrition info:"] [] t with
      | some g => some (parseNutritionL (pyStripL g))
      | none => none
    else none
  { name := nameV
    origin := originV
    ingredients := ingredientsV
    instructions := instructionsV
    health_benefits := healthV
    cultural_context := cultureV
    cooking_time := timeV
    nutrition_info := nutritionV
    tags := [] }

/- ### The mock generators (_generate_mock_recipes, _generate_mock_chat) -/

/-- MultiAIService._generate_mock_recipes: a fixed list of three recipe
dicts, with the pantry ingredients spliced into names and ingredient lists
and the nutrition sub-dicts present only for premium requests.  (The source
also computes a joined ingredient string it never uses.) -/
def generateMockRecipes (pantry : List String) (healthGoals : List String)
    (isPremium : Bool) : List Recipe :=
  [{ name := "Jollof Rice with " ++ pantry.headD "Vegetables"
     origin := "West Africa"
     ingredients :=
       ["2 cups jasmine rice", "1 can diced tomatoes", "1 large onion, diced",
        "3 cloves garlic, minced"] ++ (pantry.take 3).map (fun ing => "1 cup " ++ ing)
     instructions :=
       ["Heat oil in a large pot over medium heat",
        "Sauté onions until golden brown",
        "Add garlic and cook for 1 minute",
        "Add tomatoes and selected ingredients",
        "Add rice and stock, bring to boil",
        "Reduce heat, cover and simmer for 20-25 minutes",
        "Let stand 5 minutes before serving"]
     cooking_time := "45 minutes"
     health_benefits := "Rich in complex carbohydrates, provides sustained energy, contains antioxidants from tomatoes"
     cultural_context := "Jollof rice is a beloved West African dish, often served at celebrations and family gatherings"
     nutrition_info :=
       if isPremium then
         some [("calories", JVal.num 420), ("protein", JVal.str "12g"),
               ("fiber", JVal.str "8g"), ("vitamin_c", JVal.str "25mg")]
       else none
     tags := ["west-african", "rice", "one-pot"] },
   { name := "Ethiopian Spiced Lentils with " ++ (pantry.getD 1 "Herbs")
     origin := "Ethiopia"
     ingredients :=
       ["1 cup red lentils", "2 tbsp berbere spice blend", "1 large onion, chopped",
        "3 cloves garlic, minced"] ++ (pantry.take 2).map (fun ing => "1/2 cup " ++ ing)
     instructions :=
       ["Rinse lentils and set aside",
        "Sauté onions until soft and golden",
        "Add garlic and berbere spice, cook 1 minute",
        "Add selected ingredients and lentils",
        "Add 3 cups water, bring to boil",
        "Simmer 20-25 minutes until lentils are tender",
        "Season with salt and serve hot"]
     cooking_time := "35 minutes"
     health_benefits := "High in plant protein and fiber, supports digestive health, rich in iron and folate"
     cultural_context := "Misir wot is a staple Ethiopian dish, traditionally served with injera bread"
     nutrition_info :=
       if isPremium then
         some [("calories", JVal.num 280), ("protein", JVal.str "18g"),
               ("fiber", JVal.str "12g"), ("iron", JVal.str "6mg")]
       else none
     tags := ["ethiopian", "lentils", "spicy", "vegetarian"] },
   { name := "Kenyan Sukuma Wiki with " ++ pantry.headD "Onions"
     origin := "Kenya"
     ingredients :=
       ["1 bunch collard greens (sukuma wiki)", "2 medium tomatoes, chopped",
        "1 large onion, sliced", "2 cloves garlic, minced"] ++
         (pantry.take 2).map (fun ing => "1/2 cup " ++ ing)
     instructions :=
       ["Wash and chop collard greens into strips",
        "Heat oil in a large pan",
        "Sauté onions until translucent",
        "Add garlic and selected ingredients",
        "Add tomatoes, cook until soft",
        "Add collard greens, stir well",
        "Cover and cook 10-15 minutes until tender"]
     cooking_time := "25 minutes"
     health_benefits := "Excellent source of vitamins A, C, and K, supports immune system and bone health"
     cultural_context := "Sukuma wiki means 'push the week' in Swahili, a nutritious and affordable daily meal"
     nutrition_info :=
       if isPremium then
         some [("calories", JVal.num 150), ("protein", JVal.str "8g"),
               ("fiber", JVal.str "6g"), ("vitamin_a", JVal.str "200% DV")]
       else none
     tags := ["kenyan", "greens", "healthy", "quick"] }]

/-- The fixed response list of MultiAIService._generate_mock_chat. -/
def mockChatResponses : List String :=
  ["That's a great question about African cuisine! I'd recommend trying jollof rice - it's a beloved West African dish that's both flavorful and nutritious.",
   "For authentic African cooking, I suggest exploring traditional spices like berbere from Ethiopia or harissa from North Africa. They add incredible depth to dishes!",
   "Have you tried making ugali? It's a staple food in East Africa that pairs wonderfully with stews and vegetables.",
   "African cuisine offers so many healthy options! Consider dishes with leafy greens like sukuma wiki or moringa leaves - they're packed with nutrients.",
   "For a quick African-inspired meal, try making a simple groundnut stew with peanut butter, vegetables, and your choice of protein.",
   "Traditional African fermented foods like injera bread or fermented porridge are great for gut health and have unique flavors!"]

/-- MultiAIService._generate_mock_chat: `random.choice(responses)`, with the
random draw modelled by the explicit `choice` index (reduced modulo the list
length); the prompt argument is ignored by the source. -/
def generateMockChat (prompt : String) (choice : Nat) : String :=
  mockChatResponses.getD (choice % mockChatResponses.length) ""

/- ### The response parser (_parse_recipe_response) -/

/-- The loop body of MultiAIService._parse_recipe_response: iterate the
first three segments of the split (recipe_sections[:3]), skip segments that
strip to nothing, and append the extraction of each stripped remaining
segment (the extracted dict is non-empty, so the `if recipe:` test of the
source always passes). -/
def parsedSections (text : String) (isPremium : Bool) : List Recipe :=
  ((splitDashesGo [] text.data).take 3).foldl
    (fun acc s =>
      if (pyStripL s).isEmpty then acc
      else acc ++ [extractRecipeData (pyStripL s) isPremium])
    []

/-- MultiAIService._parse_recipe_response: split on "---", parse up to three
sections, and if no recipe was parsed return the mock recipes for the fixed
ingredient list ["rice", "tomatoes"]. -/
def parseRecipeResponse (text : String) (isPremium : Bool) : List Recipe :=
  let recipes := parsedSections text isPremium
  if recipes.isEmpty then generateMockRecipes ["rice", "tomatoes"] [] isPremium
  else recipes

/- ### Provider status tracking (AIProviderStatus, _provider_status,
_update_provider_status, get_provider_statuses) -/

/-- The AIProviderStatus record (its constructor stores the provider, the
availability flag, the quota flag, the error text and a creation
timestamp). -/
structure AIProviderStatus where
  provider : AIProvider
  available : Bool
  quota_remaining : Bool
  error : Option String
  last_checked : Nat
deriving DecidableEq

/-- The process-wide MultiAIService._provider_status dict, threaded
explicitly: an insertion-ordered association list. -/
def StatusMap : Type := List (AIProvider × AIProviderStatus)

/-- Python dict assignment `m[k] = v`: overwrite in place when the key is
present (keeping its position, as a Python dict does), append otherwise. -/
def dictSet : StatusMap → AIProvider → AIProviderStatus → StatusMap
  | [], k, v => [(k, v)]
  | kv :: m, k, v => if kv.1 = k then (k, v) :: m else kv :: dictSet m k v

/-- Python dict lookup `m.get(k)`. -/
def dictGet : StatusMap → AIProvider → Option AIProviderStatus
  | [], _ => none
  | kv :: m, k => if kv.1 = k then some kv.2 else dictGet m k

/-- MultiAIService._update_provider_status: overwrite the provider's entry
with a fresh record; quota_remaining is `"quota" not in (error or "").lower()`.
`now` models the datetime.utcnow() timestamp. -/
def updateProviderStatus (m : StatusMap) (p : AIProvider) (success : Bool)
    (error : Option String) (now : Nat) : StatusMap :=
  dictSet m p
    { provider := p
      available := success
      quota_remaining := !(containsSubL (lChars "quota") (lowerL (error.getD "").data))
      error := error
      last_checked := now }

/-- The record _update_provider_status writes for a failed attempt with
error message `msg`: available False, quota_remaining from the lowered
message, the error text itself, and the write's timestamp. -/
def failureStatusRecord (p : AIProvider) (msg : String) (now : Nat) : AIProviderStatus :=
  { provider := p
    available := false
    quota_remaining := !(containsSubL (lChars "quota") (lowerL msg.data))
    error := some msg
    last_checked := now }

/-- The record _update_provider_status writes for a successful attempt
(success=True, error=None, so quota_remaining is True). -/
def successStatusRecord (p : AIProvider) (now : Nat) : AIProviderStatus :=
  { provider := p
    available := true
    quota_remaining := true
    error := none
    last_checked := now }

/-- The static _provider_pricing cost_per_request values, scaled from dollars
to integer cents (0.05, 0.02, 0.01, 0.03, 0.00) to avoid floating point. -/
def providerCostCents : AIProvider → Nat
  | .openai => 5
  | .gemini => 2
  | .huggingface => 1
  | .cohere => 3
  | .mock => 0

/-- The static _provider_pricing premium_only flags. -/
def providerPremiumOnly : AIProvider → Bool
  | .cohere => true
  | _ => false

/-- `provider.value.title()` on the one-word lowercase values. -/
def titleValue : AIProvider → String
  | .openai => "Openai"
  | .gemini => "Gemini"
  | .huggingface => "Huggingface"
  | .cohere => "Cohere"
  | .mock => "Mock"

/-- One entry of the dict returned by get_provider_statuses.  last_checked
is the isoformat timestamp for an initialized provider (modelled by the Nat
clock value) and Python None otherwise. -/
structure ProviderStatusView where
  available : Bool
  quota_remaining : Bool
  error : Option String
  last_checked : Option Nat
  cost_per_request_cents : Nat
  premium_only : Bool
  display_name : String
deriving DecidableEq

/-- The entry get_provider_statuses builds for one provider (the
pricing-table .get defaults of the source are dead: the table is total). -/
def statusEntry (m : StatusMap) (p : AIProvider) : String × ProviderStatusView :=
  match dictGet m p with
  | some st =>
    (p.value,
     { available := st.available
       quota_remaining := st.quota_remaining
       error := st.error
       last_checked := some st.last_checked
       cost_per_request_cents := providerCostCents p
       premium_only := providerPremiumOnly p
       display_name := titleValue p })
  | none =>
    (p.value,
     { available := false
       quota_remaining := false
       error := some "Not initialized"
       last_checked := none
       cost_per_request_cents := providerCostCents p
       premium_only := providerPremiumOnly p
       display_name := titleValue p })

/-- MultiAIService.get_provider_statuses: one entry per enum member, in enum
declaration order. -/
def getProviderStatuses (m : StatusMap) : List (String × ProviderStatusView) :=
  allProviders.map (statusEntry m)

/- ### The recipe generation driver (generate_recipes) -/

/-- One per-attempt entry of generation_info["provider_statuses"]. -/
structure ErrEntry where
  error : String
  quota_exceeded : Bool
deriving DecidableEq

/-- The generation_info metadata dict of generate_recipes (the wall-clock
generation_time and the never-written quota_info key are not modelled). -/
structure GenerationInfo where
  providers_tried : List String
  successful_provider : Option String
  fallback_used : Bool
  provider_statuses : List (String × ErrEntry)
deriving DecidableEq

/-- The environment of a generate_recipes call: the configured
DEFAULT_AI_PROVIDER value, the outcome of the external call made for each
non-mock provider (`.error msg` = the per-provider helper raised, e.g. a
missing API key or an API failure; `.ok text` = it obtained the response
text that it passes to _parse_recipe_response), and the clock value used for
status timestamps. -/
structure RecipeEnv where
  defaultProvider : String
  response : AIProvider → Except String String
  now : Nat

/-- MultiAIService._generate_with_provider: the mock branch computes
_generate_mock_recipes directly and cannot raise; every other branch either
raises or returns the parse of the provider's response text. -/
def attemptRecipeProvider (env : RecipeEnv) (p : AIProvider)
    (pantry healthGoals : List String) (isPremium : Bool) :
    Except String (List Recipe) :=
  match p with
  | .mock => .ok (generateMockRecipes pantry healthGoals isPremium)
  | q => (env.response q).map (fun text => parseRecipeResponse text isPremium)

/-- The derived quota flag of a failed attempt:
`"429" in error_msg or "quota" in error_msg.lower()`. -/
def quotaFlag (msg : String) : Bool :=
  containsSubL (lChars "429") msg.data || containsSubL (lChars "quota") (lowerL msg.data)

/-- The provider loop of generate_recipes.  `first` is provider_order[0]
(only read on success, exactly as in the source).  Each iteration appends
the provider to providers_tried; an attempt that raises records the error
entry and overwrites the provider's status; a successful attempt with a
non-empty recipe list (the empty case is dead code: every attempt that
returns, returns a non-empty list) finalizes the metadata, records a
successful status and returns; an exhausted order raises the terminal
exception. -/
def genRecipesLoop (env : RecipeEnv) (pantry healthGoals : List String)
    (isPremium : Bool) (first : AIProvider) :
    List AIProvider → GenerationInfo → StatusMap →
      Except String (List Recipe × GenerationInfo) × StatusMap
  | [], _info, st => (.error "All AI providers failed to generate recipes", st)
  | p :: rest, info, st =>
    let info1 := { info with providers_tried := info.providers_tried ++ [p.value] }
    match attemptRecipeProvider env p pantry healthGoals isPremium with
    | .ok recipes =>
      if recipes.isEmpty then
        genRecipesLoop env pantry healthGoals isPremium first rest info1 st
      else
        (.ok (recipes,
          { info1 with
            successful_provider := some p.value
            fallback_used := decide (p ≠ first) }),
         updateProviderStatus st p true none env.now)
    | .error e =>
      genRecipesLoop env pantry healthGoals isPremium first rest
        { info1 with
          provider_statuses := info1.provider_statuses ++
            [(p.value, { error := e, quota_exceeded := quotaFlag e })] }
        (updateProviderStatus st p false (some e) env.now)

/-- MultiAIService.generate_recipes: reject an empty ingredient list before
any provider is attempted, resolve the provider order, and run the loop
starting from the empty metadata.  (provider_order[0] is read lazily in the
source, so the headD default is irrelevant: the loop only uses `first` when
the order is non-empty.) -/
def generateRecipes (env : RecipeEnv) (pantry healthGoals : List String)
    (isPremium : Bool) (preferred : Option String) (st : StatusMap) :
    Except String (List Recipe × GenerationInfo) × StatusMap :=
  if pantry.isEmpty then
    (.error "At least one pantry ingredient is required", st)
  else
    let order := getProviderOrder preferred env.defaultProvider
    genRecipesLoop env pantry healthGoals isPremium (order.headD .gemini) order
      { providers_tried := []
        successful_provider := none
        fallback_used := false
        provider_statuses := [] } st

/- ### The chat generation driver (generate_chat_response) -/

/-- The environment of a generate_chat_response call: as RecipeEnv, with the
random draw for the mock chat response. -/
structure ChatEnv where
  defaultProvider : String
  response : AIProvider → Except String String
  choice : Nat

/-- The result dict of generate_chat_response (generation_time not
modelled). -/
structure ChatResult where
  response : String
  successful_provider : String
  providers_tried : List String
  fallback_used : Bool
deriving DecidableEq

/-- One chat attempt: the mock branch computes _generate_mock_chat and
cannot raise; every other branch is the external call. -/
def attemptChatProvider (env : ChatEnv) (p : AIProvider) (prompt : String) :
    Except String String :=
  match p with
  | .mock => .ok (generateMockChat prompt env.choice)
  | q => env.response q

/-- The provider loop of generate_chat_response: append each provider to
providers_tried, return on the first attempt that does not raise
(fallback_used is `len(providers_tried) > 1`), swallow every exception, and
after an exhausted order return the mock response with provider "mock" and
fallback_used True.  No branch touches the provider-status state. -/
def genChatLoop (env : ChatEnv) (prompt : String) :
    List AIProvider → List String → ChatResult
  | [], tried =>
    { response := generateMockChat prompt env.choice
      successful_provider := "mock"
      providers_tried := tried
      fallback_used := true }
  | p :: rest, tried =>
    let tried1 := tried ++ [p.value]
    match attemptChatProvider env p prompt with
    | .ok r =>
      { response := r
        successful_provider := p.value
        providers_tried := tried1
        fallback_used := decide (tried1.length > 1) }
    | .error _ => genChatLoop env prompt rest tried1

/-- MultiAIService.generate_chat_response: resolve the provider order and
run the loop.  The source never updates the provider-status dict in this
driver, so the state component is returned unchanged. -/
def generateChatResponse (env : ChatEnv) (prompt : String)
    (preferred : Option String) (st : StatusMap) : ChatResult × StatusMap :=
  (genChatLoop env prompt (getProviderOrder preferred env.defaultProvider) [], st)

/- ### Concrete environments and records used by the concrete theorems -/

/-- An environment in which every external provider call raises (e.g. no API
key is configured). -/
def envFailAll : RecipeEnv :=
  { defaultProvider := "gemini", response := fun _ => .error "no api key", now := 0 }

/-- An environment in which Gemini returns an empty response body and every
other external call raises. -/
def envEmptyGemini : RecipeEnv :=
  { defaultProvider := "gemini"
    response := fun p => if p = .gemini then .ok "" else .error "no api key"
    now := 0 }

/-- An environment in which Gemini raises an HTTP 429 error and every other
external call raises with a plain message. -/
def env429 : RecipeEnv :=
  { defaultProvider := "gemini"
    response := fun p => if p = .gemini then .error "HTTP 429" else .error "no api key"
    now := 0 }

/-- A chat environment in which every external provider call raises. -/
def chatEnvFailAll : ChatEnv :=
  { defaultProvider := "gemini", response := fun _ => .error "no api key", choice := 0 }

/-- The record parsed from the segment "Recipe Name: Ugali\nOrigin: Kenya":
name and origin from their labels, every other field at its default. -/
def recipeUgali : Recipe :=
  { name := "Ugali"
    origin := "Kenya"
    ingredients := []
    instructions := []
    health_benefits := "Nutritious and delicious"
    cultural_context := "Traditional African cuisine"
    cooking_time := "30 minutes"
    nutrition_info := none
    tags := [] }

/-- The record parsed from the segment "Recipe Name: Fufu": name from its
label, every other field at its default (origin falls back to "Africa"). -/
def recipeFufu : Recipe :=
  { name := "Fufu"
    origin := "Africa"
    ingredients := []
    instructions := []
    health_benefits := "Nutritious and delicious"
    cultural_context := "Traditional African cuisine"
    cooking_time := "30 minutes"
    nutrition_info := none
    tags := [] }

/-- The metadata produced by generateRecipes under env429 (all four external
providers fail, the 429 flag is set exactly for the Gemini entry, the mock
succeeds). -/
def info429 : GenerationInfo :=
  { providers_tried := ["gemini", "openai", "huggingface", "cohere", "mock"]
    successful_provider := some "mock"
    fallback_used := true
    provider_statuses :=
      [("gemini", { error := "HTTP 429", quota_exceeded := true }),
       ("openai", { error := "no api key", quota_exceeded := false }),
       ("huggingface", { error := "no api key", quota_exceeded := false }),
       ("cohere", { error := "no api key", quota_exceeded := false })] }

/- ### Helper lemmas -/

/-- The mock generator always returns exactly three recipes. -/
lemma generateMockRecipes_length (pantry healthGoals : List String) (prem : Bool) :
    (generateMockRecipes pantry healthGoals prem).length = 3 := by
  simp [generateMockRecipes]

lemma generateMockRecipes_ne_nil (pantry healthGoals : List String) (prem : Bool) :
    generateMockRecipes pantry healthGoals prem ≠ [] := by
  simp [generateMockRecipes]

/-- The parser never returns an empty list: an empty parse is replaced by the
mock recipes. -/
lemma parseRecipeResponse_ne_nil (t : String) (prem : Bool) :
    parseRecipeResponse t prem ≠ [] := by
  by_cases h : (parsedSections t prem).isEmpty
  · simp [parseRecipeResponse, h, generateMockRecipes]
  · simp only [parseRecipeResponse, h, if_false, Bool.false_eq_true]
    simpa [List.isEmpty_iff] using h

/-- An Except.map of the parser that returns, returns a non-empty list. -/
lemma parseMap_ok_ne_nil (resp : Except String String) (c : Bool) (r : List Recipe)
    (h : Except.map (fun text => parseRecipeResponse text c) resp = .ok r) :
    r ≠ [] := by
  cases resp with
  | error e => simp [Except.map] at h
  | ok t =>
    simp [Except.map] at h
    exact h ▸ parseRecipeResponse_ne_nil t c

/-- A recipe attempt that returns, returns a non-empty list. -/
lemma attemptRecipeProvider_ok_ne_nil (env : RecipeEnv) (p : AIProvider)
    (a b : List String) (c : Bool) (r : List Recipe)
    (h : attemptRecipeProvider env p a b c = .ok r) : r ≠ [] := by
  cases p
  case openai => exact parseMap_ok_ne_nil (env.response .openai) c r h
  case gemini => exact parseMap_ok_ne_nil (env.response .gemini) c r h
  case huggingface => exact parseMap_ok_ne_nil (env.response .huggingface) c r h
  case cohere => exact parseMap_ok_ne_nil (env.response .cohere) c r h
  case mock =>
    simp only [attemptRecipeProvider, Except.ok.injEq] at h
    exact h ▸ generateMockRecipes_ne_nil a b c

/-- The mock attempt never raises. -/
lemma attemptRecipeProvider_mock (env : RecipeEnv) (a b : List String) (c : Bool) :
    attemptRecipeProvider env .mock a b c = .ok (generateMockRecipes a b c) := rfl

/-- Distinct providers have distinct value strings. -/
lemma value_inj (p q : AIProvider) (h : p.value = q.value) : p = q := by
  cases p <;> cases q <;> simp_all [AIProvider.value]

/-- Every resolved order is either the canonical fallback order or one
provider moved to the front of it. -/
lemma getProviderOrder_shape (pref : Option String) (d : String) :
    getProviderOrder pref d = fallbackOrder ∨
      ∃ q, getProviderOrder pref d = q :: fallbackOrder.filter (fun x => x ≠ q) := by
  have hdflt : (match providerOfString (lowerS d) with
      | some d0 => d0 :: fallbackOrder.filter (fun p => p ≠ d0)
      | none => fallbackOrder) = fallbackOrder ∨
      ∃ q, (match providerOfString (lowerS d) with
      | some d0 => d0 :: fallbackOrder.filter (fun p => p ≠ d0)
      | none => fallbackOrder) = q :: fallbackOrder.filter (fun x => x ≠ q) := by
    cases providerOfString (lowerS d) with
    | none => exact Or.inl rfl
    | some d0 => exact Or.inr ⟨d0, rfl⟩
  cases pref with
  | none => simpa [getProviderOrder] using hdflt
  | some s =>
    by_cases hs : s = ""
    · simpa [getProviderOrder, hs] using hdflt
    · cases hp : providerOfString (lowerS s) with
      | none => simpa [getProviderOrder, hs, hp] using hdflt
      | some p => exact Or.inr ⟨p, by simp [getProviderOrder, hs, hp]⟩

/-- Every provider occurs in every resolved order. -/
lemma mem_getProviderOrder (pref : Option String) (d : String) (p : AIProvider) :
    p ∈ getProviderOrder pref d := by
  rcases getProviderOrder_shape pref d with h | ⟨q, h⟩
  · rw [h]; cases p <;> decide
  · rw [h]; cases p <;> cases q <;> decide

/-- Every resolved order is duplicate-free. -/
lemma nodup_getProviderOrder (pref : Option String) (d : String) :
    (getProviderOrder pref d).Nodup := by
  rcases getProviderOrder_shape pref d with h | ⟨q, h⟩
  · rw [h]; decide
  · rw [h]; cases q <;> decide

/-- Looking up the key just written. -/
lemma dictGet_dictSet_self (m : StatusMap) (k : AIProvider) (v : AIProviderStatus) :
    dictGet (dictSet m k v) k = some v := by
  induction m with
  | nil => simp [dictSet, dictGet]
  | cons kv m ih => by_cases h : kv.1 = k <;> simp [dictSet, dictGet, h, ih]

/-- Looking up a different key after a write. -/
lemma dictGet_dictSet_ne (m : StatusMap) (k : AIProvider) (v : AIProviderStatus)
    (k2 : AIProvider) (h : k2 ≠ k) :
    dictGet (dictSet m k v) k2 = dictGet m k2 := by
  have h2 : ¬ k = k2 := fun hc => h hc.symm
  induction m with
  | nil => simp [dictSet, dictGet, h2]
  | cons kv m ih =>
    by_cases hk : kv.1 = k
    · have hk2 : ¬ kv.1 = k2 := by rw [hk]; exact h2
      simp [dictSet, dictGet, hk, hk2, h2]
    · by_cases hk2 : kv.1 = k2
      · simp [dictSet, dictGet, hk, hk2, h, h2]
      · simp [dictSet, dictGet, hk, hk2, ih]

/-- Status lookup of the provider just recorded. -/
lemma dictGet_update_self (m : StatusMap) (p : AIProvider) (s : Bool)
    (e : Option String) (n : Nat) :
    dictGet (updateProviderStatus m p s e n) p =
      some { provider := p, available := s,
             quota_remaining := !(containsSubL (lChars "quota") (lowerL (e.getD "").data)),
             error := e, last_checked := n } := by
  unfold updateProviderStatus
  exact dictGet_dictSet_self m p _

/-- Status lookup of a different provider after a record. -/
lemma dictGet_update_ne (m : StatusMap) (p : AIProvider) (s : Bool)
    (e : Option String) (n : Nat) (q : AIProvider) (h : q ≠ p) :
    dictGet (updateProviderStatus m p s e n) q = dictGet m q := by
  unfold updateProviderStatus
  exact dictGet_dictSet_ne m p _ q h

/-- One successful step of the recipe loop. -/
lemma genRecipesLoop_cons_ok (env : RecipeEnv) (pantry healthGoals : List String)
    (prem : Bool) (first p : AIProvider) (rest : List AIProvider)
    (info : GenerationInfo) (st : StatusMap) (recipes : List Recipe)
    (h : attemptRecipeProvider env p pantry healthGoals prem = .ok recipes)
    (hne : recipes ≠ []) :
    genRecipesLoop env pantry healthGoals prem first (p :: rest) info st =
      (.ok (recipes,
        { info with
          providers_tried := info.providers_tried ++ [p.value]
          successful_provider := some p.value
          fallback_used := decide (p ≠ first) }),
       updateProviderStatus st p true none env.now) := by
  simp only [genRecipesLoop]
  rw [h]
  simp [List.isEmpty_iff, hne]

/-- One failing step of the recipe loop. -/
lemma genRecipesLoop_cons_err (env : RecipeEnv) (pantry healthGoals : List String)
    (prem : Bool) (first p : AIProvider) (rest : List AIProvider)
    (info : GenerationInfo) (st : StatusMap) (e : String)
    (h : attemptRecipeProvider env p pantry healthGoals prem = .error e) :
    genRecipesLoop env pantry healthGoals prem first (p :: rest) info st =
      genRecipesLoop env pantry healthGoals prem first rest
        { info with
          providers_tried := info.providers_tried ++ [p.value]
          provider_statuses := info.provider_statuses ++
            [(p.value, { error := e, quota_exceeded := quotaFlag e })] }
        (updateProviderStatus st p false (some e) env.now) := by
  simp only [genRecipesLoop]
  rw [h]

/-- A failing attempt is not the mock attempt. -/
lemma attempt_err_ne_mock (env : RecipeEnv) (p : AIProvider)
    (pantry healthGoals : List String) (prem : Bool) (e : String)
    (h : attemptRecipeProvider env p pantry healthGoals prem = .error e) :
    p ≠ .mock := by
  intro hp
  rw [hp, attemptRecipeProvider_mock] at h
  simp at h

/-- The master lemma on the recipe loop: as long as the remaining order
contains the mock provider, the loop returns successfully; the providers
tried are the first k of the remaining order for some k ≥ 1; the successful
provider is among them; the fallback flag compares it with the first-choice
provider; every tried provider has a freshly written status entry and every
other status entry is untouched; and every recorded error entry carries the
derived quota flag of its own message. -/
lemma genRecipesLoop_master (env : RecipeEnv) (pantry healthGoals : List String)
    (prem : Bool) (first : AIProvider) :
    ∀ (rest : List AIProvider) (info : GenerationInfo) (st : StatusMap),
      .mock ∈ rest →
      (∀ pv e, (pv, e) ∈ info.provider_statuses → e.quota_exceeded = quotaFlag e.error) →
      ∃ recipes info2 st2 k p,
        genRecipesLoop env pantry healthGoals prem first rest info st =
          (.ok (recipes, info2), st2) ∧
        recipes ≠ [] ∧
        1 ≤ k ∧ k ≤ rest.length ∧
        info2.providers_tried =
          info.providers_tried ++ (rest.take k).map AIProvider.value ∧
        p ∈ rest.take k ∧
        info2.successful_provider = some p.value ∧
        info2.fallback_used = decide (p ≠ first) ∧
        (∀ q : AIProvider, q.value ∈ (rest.take k).map AIProvider.value →
          (dictGet st2 q).isSome = true) ∧
        (∀ q : AIProvider, q.value ∉ (rest.take k).map AIProvider.value →
          dictGet st2 q = dictGet st q) ∧
        (∀ pv e, (pv, e) ∈ info2.provider_statuses →
          e.quota_exceeded = quotaFlag e.error) := by
  intro rest
  induction rest with
  | nil => intro info st hmock _; exact absurd hmock (by simp)
  | cons p0 rest ih =>
    intro info st hmock hinv
    cases hAtt : attemptRecipeProvider env p0 pantry healthGoals prem with
    | ok recipes =>
      have hne := attemptRecipeProvider_ok_ne_nil env p0 _ _ _ _ hAtt
      refine ⟨recipes, _, _, 1, p0,
        genRecipesLoop_cons_ok env pantry healthGoals prem first p0 rest info st recipes hAtt hne,
        hne, le_refl 1, by simp, by simp, by simp, rfl, rfl, ?_, ?_, ?_⟩
      · intro q hq
        simp only [List.take, List.map, List.mem_singleton] at hq
        have : q = p0 := value_inj q p0 hq
        rw [this, dictGet_update_self]
        rfl
      · intro q hq
        simp only [List.take, List.map, List.mem_singleton] at hq
        have : q ≠ p0 := fun hc => hq (by rw [hc])
        exact dictGet_update_ne st p0 true none env.now q this
      · exact hinv
    | error e =>
      have hp0 : p0 ≠ .mock := attempt_err_ne_mock env p0 pantry healthGoals prem e hAtt
      have hmock2 : AIProvider.mock ∈ rest := by
        rcases List.mem_cons.mp hmock with hh | hh
        · exact absurd hh.symm hp0
        · exact hh
      have hinv2 : ∀ pv e2, (pv, e2) ∈ (info.provider_statuses ++
          [(p0.value, ({ error := e, quota_exceeded := quotaFlag e } : ErrEntry))]) →
          e2.quota_exceeded = quotaFlag e2.error := by
        intro pv e2 hmem
        rcases List.mem_append.mp hmem with hh | hh
        · exact hinv pv e2 hh
        · simp only [List.mem_singleton, Prod.mk.injEq] at hh
          rw [hh.2]
      obtain ⟨recipes, info2, st2, k, p, hrun, hne, hk1, hkle, htried, hpmem,
        hsucc, hfb, hsome, hframe, hinvf⟩ :=
        ih { info with
              providers_tried := info.providers_tried ++ [p0.value]
              provider_statuses := info.provider_statuses ++
                [(p0.value, { error := e, quota_exceeded := quotaFlag e })] }
          (updateProviderStatus st p0 false (some e) env.now) hmock2 hinv2
      refine ⟨recipes, info2, st2, k + 1, p, ?_, hne, by omega, by simp; omega, ?_, ?_,
        hsucc, hfb, ?_, ?_, hinvf⟩
      · rw [genRecipesLoop_cons_err env pantry healthGoals prem first p0 rest info st e hAtt]
        exact hrun
      · rw [htried]
        simp [List.take_succ_cons, List.append_assoc]
      · rw [List.take_succ_cons]
        exact List.mem_cons_of_mem p0 hpmem
      · intro q hq
        rw [List.take_succ_cons, List.map_cons] at hq
        rcases List.mem_cons.mp hq with hh | hh
        · have hqp : q = p0 := value_inj q p0 hh
          by_cases hin : q.value ∈ (rest.take k).map AIProvider.value
          · exact hsome q hin
          · rw [hframe q hin, hqp, dictGet_update_self]
            rfl
        · exact hsome q hh
      · intro q hq
        rw [List.take_succ_cons, List.map_cons] at hq
        have hq1 : ¬ q.value = p0.value := fun hc => hq (by
          rw [hc]; exact List.mem_cons_self _ _)
        have hq2 : q.value ∉ (rest.take k).map AIProvider.value :=
          fun hc => hq (List.mem_cons_of_mem _ hc)
        have hqp : q ≠ p0 := fun hc => hq1 (by rw [hc])
        rw [hframe q hq2, dictGet_update_ne st p0 false (some e) env.now q hqp]

/-- The chat attempt for the mock provider never raises. -/
lemma attemptChatProvider_mock (env : ChatEnv) (prompt : String) :
    attemptChatProvider env .mock prompt = .ok (generateMockChat prompt env.choice) := rfl

/-- Master lemma on the chat loop: as long as the remaining order contains
the mock provider, the loop returns with a successful provider among the
first k of the remaining order (k ≥ 1); the providers tried are exactly
those k, and the fallback flag compares the tried count with one. -/
lemma genChatLoop_master (env : ChatEnv) (prompt : String) :
    ∀ (rest : List AIProvider) (tried : List String),
      .mock ∈ rest →
      ∃ p k r, 1 ≤ k ∧ k ≤ rest.length ∧ p ∈ rest.take k ∧
        genChatLoop env prompt rest tried =
          { response := r
            successful_provider := p.value
            providers_tried := tried ++ (rest.take k).map AIProvider.value
            fallback_used :=
              decide ((tried ++ (rest.take k).map AIProvider.value).length > 1) } := by
  intro rest
  induction rest with
  | nil => intro tried hmock; exact absurd hmock (by simp)
  | cons p0 rest ih =>
    intro tried hmock
    cases hAtt : attemptChatProvider env p0 prompt with
    | ok r =>
      refine ⟨p0, 1, r, le_refl 1, by simp, by simp, ?_⟩
      simp only [genChatLoop]
      rw [hAtt]
      simp
    | error e =>
      have hp0 : p0 ≠ .mock := by
        intro hh
        rw [hh, attemptChatProvider_mock] at hAtt
        simp at hAtt
      have hmock2 : AIProvider.mock ∈ rest := by
        rcases List.mem_cons.mp hmock with hh | hh
        · exact absurd hh.symm hp0
        · exact hh
      obtain ⟨p, k, r, hk1, hkle, hpmem, hrun⟩ := ih (tried ++ [p0.value]) hmock2
      refine ⟨p, k + 1, r, by omega, by simp; omega, ?_, ?_⟩
      · rw [List.take_succ_cons]
        exact List.mem_cons_of_mem p0 hpmem
      · simp only [genChatLoop]
        rw [hAtt, hrun]
        simp [List.take_succ_cons, List.append_assoc]

/-- A failed attempt's write, read back: exactly the failure record of that
attempt's error message. -/
lemma dictGet_update_failure (m : StatusMap) (p : AIProvider) (e : String) (n : Nat) :
    dictGet (updateProviderStatus m p false (some e) n) p =
      some (failureStatusRecord p e n) := by
  rw [dictGet_update_self]
  rfl

/-- A successful attempt's write, read back: exactly the success record. -/
lemma dictGet_update_success (m : StatusMap) (p : AIProvider) (n : Nat) :
    dictGet (updateProviderStatus m p true none n) p =
      some (successStatusRecord p n) := by
  rw [dictGet_update_self]
  rfl

/-- Status-content lemma on the recipe loop: starting from a duplicate-free
remaining order containing the mock provider, and a state in which every
provider already recorded in the metadata holds its fresh failure record
and does not recur in the remaining order, the loop succeeds and ends in a
state where every provider of a recorded failure entry holds the fresh
failure record of its own message, the successful provider holds the fresh
success record, every tried provider is the successful one or has a failure
entry, and untried providers keep their previous entries. -/
lemma genRecipesLoop_status (env : RecipeEnv) (pantry healthGoals : List String)
    (prem : Bool) (first : AIProvider) :
    ∀ (rest : List AIProvider) (info : GenerationInfo) (st : StatusMap),
      .mock ∈ rest →
      rest.Nodup →
      (∀ pv e, (pv, e) ∈ info.provider_statuses → ∀ q : AIProvider, q.value = pv →
        q ∉ rest ∧ dictGet st q = some (failureStatusRecord q e.error env.now)) →
      ∃ recipes info2 st2 k,
        genRecipesLoop env pantry healthGoals prem first rest info st =
          (.ok (recipes, info2), st2) ∧
        1 ≤ k ∧
        info2.providers_tried =
          info.providers_tried ++ (rest.take k).map AIProvider.value ∧
        (∀ x, x ∈ info.provider_statuses → x ∈ info2.provider_statuses) ∧
        (∀ pv e, (pv, e) ∈ info2.provider_statuses → ∀ q : AIProvider, q.value = pv →
          dictGet st2 q = some (failureStatusRecord q e.error env.now)) ∧
        (∀ q : AIProvider, info2.successful_provider = some q.value →
          dictGet st2 q = some (successStatusRecord q env.now)) ∧
        (∀ q : AIProvider, q.value ∈ (rest.take k).map AIProvider.value →
          info2.successful_provider = some q.value ∨
            ∃ e, (q.value, e) ∈ info2.provider_statuses) ∧
        (∀ q : AIProvider, q.value ∉ (rest.take k).map AIProvider.value →
          dictGet st2 q = dictGet st q) := by
  intro rest
  induction rest with
  | nil => intro info st hmock _ _; exact absurd hmock (by simp)
  | cons p0 rest ih =>
    intro info st hmock hnodup hinv
    have hp0nin : p0 ∉ rest := (List.nodup_cons.mp hnodup).1
    have hnodup2 : rest.Nodup := (List.nodup_cons.mp hnodup).2
    cases hAtt : attemptRecipeProvider env p0 pantry healthGoals prem with
    | ok recipes =>
      have hne := attemptRecipeProvider_ok_ne_nil env p0 _ _ _ _ hAtt
      refine ⟨recipes, _, _, 1,
        genRecipesLoop_cons_ok env pantry healthGoals prem first p0 rest info st
          recipes hAtt hne,
        le_refl 1, by simp, fun x hx => hx, ?_, ?_, ?_, ?_⟩
      · intro pv e hmem q hqv
        obtain ⟨hqnin, hqget⟩ := hinv pv e hmem q hqv
        have hqp0 : q ≠ p0 := fun hc => hqnin (hc ▸ List.mem_cons_self _ _)
        rw [dictGet_update_ne st p0 true none env.now q hqp0]
        exact hqget
      · intro q hq
        simp only [Option.some.injEq] at hq
        have hqp0 : q = p0 := value_inj q p0 hq.symm
        rw [hqp0]
        exact dictGet_update_success st p0 env.now
      · intro q hq
        simp only [List.take, List.map, List.mem_singleton] at hq
        exact Or.inl (by rw [hq])
      · intro q hq
        simp only [List.take, List.map, List.mem_singleton] at hq
        have hqp0 : q ≠ p0 := fun hc => hq (by rw [hc])
        exact dictGet_update_ne st p0 true none env.now q hqp0
    | error e =>
      have hp0 : p0 ≠ .mock := attempt_err_ne_mock env p0 pantry healthGoals prem e hAtt
      have hmock2 : AIProvider.mock ∈ rest := by
        rcases List.mem_cons.mp hmock with hh | hh
        · exact absurd hh.symm hp0
        · exact hh
      have hinv2 : ∀ pv e2, (pv, e2) ∈ (info.provider_statuses ++
          [(p0.value, ({ error := e, quota_exceeded := quotaFlag e } : ErrEntry))]) →
          ∀ q : AIProvider, q.value = pv →
          q ∉ rest ∧ dictGet (updateProviderStatus st p0 false (some e) env.now) q =
            some (failureStatusRecord q e2.error env.now) := by
        intro pv e2 hmem q hqv
        rcases List.mem_append.mp hmem with hh | hh
        · obtain ⟨hqnin, hqget⟩ := hinv pv e2 hh q hqv
          have hqrest : q ∉ rest := fun hc => hqnin (List.mem_cons_of_mem _ hc)
          have hqp0 : q ≠ p0 := fun hc => hqnin (hc ▸ List.mem_cons_self _ _)
          rw [dictGet_update_ne st p0 false (some e) env.now q hqp0]
          exact ⟨hqrest, hqget⟩
        · simp only [List.mem_singleton, Prod.mk.injEq] at hh
          have hqp0 : q = p0 := value_inj q p0 (hqv.trans hh.1)
          rw [hqp0, hh.2]
          exact ⟨hp0nin, dictGet_update_failure st p0 e env.now⟩
      obtain ⟨recipes, info2, st2, k, hrun, hk1, htried, hmono, hA, hB, hC, hframe⟩ :=
        ih { info with
              providers_tried := info.providers_tried ++ [p0.value]
              provider_statuses := info.provider_statuses ++
                [(p0.value, { error := e, quota_exceeded := quotaFlag e })] }
          (updateProviderStatus st p0 false (some e) env.now) hmock2 hnodup2 hinv2
      refine ⟨recipes, info2, st2, k + 1, ?_, by omega, ?_, ?_, hA, hB, ?_, ?_⟩
      · rw [genRecipesLoop_cons_err env pantry healthGoals prem first p0 rest info st
          e hAtt]
        exact hrun
      · rw [htried]
        simp [List.take_succ_cons, List.append_assoc]
      · intro x hx
        exact hmono x (List.mem_append_left _ hx)
      · intro q hq
        rw [List.take_succ_cons, List.map_cons] at hq
        rcases List.mem_cons.mp hq with hh | hh
        · refine Or.inr ⟨{ error := e, quota_exceeded := quotaFlag e }, ?_⟩
          rw [hh]
          exact hmono _ (List.mem_append_right _ (List.mem_singleton.mpr rfl))
        · exact hC q hh
      · intro q hq
        rw [List.take_succ_cons, List.map_cons] at hq
        have hq1 : ¬ q.value = p0.value := fun hc => hq (by
          rw [hc]; exact List.mem_cons_self _ _)
        have hq2 : q.value ∉ (rest.take k).map AIProvider.value :=
          fun hc => hq (List.mem_cons_of_mem _ hc)
        have hqp0 : q ≠ p0 := fun hc => hq1 (by rw [hc])
        rw [hframe q hq2, dictGet_update_ne st p0 false (some e) env.now q hqp0]

/- ### Claim theorems -/

/-- C2: for every (possibly absent) preferred-provider string the resolved
order is a duplicate-free total order over all five providers; a valid,
known preference is placed first followed by the remaining providers in the
canonical fallback sequence; if neither the preference nor the configured
default names a known provider, the canonical fallback sequence — whose
final entry is the mock provider — is returned unchanged. -/
theorem provider_order_resolution (pref : Option String) (dflt : String) :
    (getProviderOrder pref dflt).Nodup ∧
    (∀ p : AIProvider, p ∈ getProviderOrder pref dflt) ∧
    fallbackOrder.getLast? = some .mock ∧
    (∀ s p, pref = some s → s ≠ "" → providerOfString (lowerS s) = some p →
      getProviderOrder pref dflt = p :: fallbackOrder.filter (fun q => q ≠ p)) ∧
    ((match pref with
      | none => True
      | some s => s = "" ∨ providerOfString (lowerS s) = none) →
      providerOfString (lowerS dflt) = none →
      getProviderOrder pref dflt = fallbackOrder) := by
  refine ⟨nodup_getProviderOrder pref dflt, mem_getProviderOrder pref dflt, rfl, ?_, ?_⟩
  · intro s p hps hs hp
    subst hps
    simp [getProviderOrder, hs, hp]
  · intro hpref hd
    cases pref with
    | none => simp [getProviderOrder, hd]
    | some s =>
      rcases hpref with hs | hp
      · simp [getProviderOrder, hs, hd]
      · by_cases hs : s = ""
        · simp [getProviderOrder, hs, hd]
        · simp [getProviderOrder, hs, hp, hd]

/-- Witness for C2 at preferred="cohere", default="gemini". -/
theorem provider_order_resolution_w :
    getProviderOrder (some "cohere") "gemini" =
      AIProvider.cohere :: fallbackOrder.filter (fun q => q ≠ AIProvider.cohere) :=
  (provider_order_resolution (some "cohere") "gemini").2.2.2.1 "cohere" .cohere rfl
    (by decide) (by decide)

/-- C1: generate_recipes raises on an empty ingredient list before touching
any provider state; on a non-empty ingredient list it returns normally (the
terminal all-providers-failed exception is unreachable) with a non-empty
recipe list and a providers_tried list that is a non-empty prefix (the first
k entries, k ≥ 1) of the resolved provider order. -/
theorem generateRecipes_total_and_tried :
    (∀ (env : RecipeEnv) (healthGoals : List String) (prem : Bool)
      (pref : Option String) (st : StatusMap),
      generateRecipes env [] healthGoals prem pref st =
        (.error "At least one pantry ingredient is required", st)) ∧
    (∀ (env : RecipeEnv) (pantry healthGoals : List String) (prem : Bool)
      (pref : Option String) (st : StatusMap), pantry ≠ [] →
      ∃ recipes info st2,
        generateRecipes env pantry healthGoals prem pref st = (.ok (recipes, info), st2) ∧
        recipes ≠ [] ∧
        info.providers_tried ≠ [] ∧
        ∃ k, 1 ≤ k ∧
          info.providers_tried =
            ((getProviderOrder pref env.defaultProvider).map AIProvider.value).take k) := by
  constructor
  · intro env healthGoals prem pref st
    rfl
  · intro env pantry healthGoals prem pref st hne
    have hmock := mem_getProviderOrder pref env.defaultProvider .mock
    have hordne : getProviderOrder pref env.defaultProvider ≠ [] :=
      List.ne_nil_of_mem hmock
    obtain ⟨recipes, info2, st2, k, p, hrun, hner, hk1, hkle, htried, hpmem,
      hsucc, hfb, hsome, hframe, hinvf⟩ :=
      genRecipesLoop_master env pantry healthGoals prem
        ((getProviderOrder pref env.defaultProvider).headD .gemini)
        (getProviderOrder pref env.defaultProvider)
        { providers_tried := [], successful_provider := none,
          fallback_used := false, provider_statuses := [] } st hmock
        (by intro pv e h; simp at h)
    have hE : pantry.isEmpty = false := by
      cases pantry with
      | nil => exact absurd rfl hne
      | cons a l => rfl
    refine ⟨recipes, info2, st2, ?_, hner, ?_, k, hk1, ?_⟩
    · simp only [generateRecipes, hE, Bool.false_eq_true, if_false]
      exact hrun
    · rw [htried]
      simp only [List.nil_append, ne_eq, List.map_eq_nil_iff]
      apply List.ne_nil_of_length_pos
      rw [List.length_take]
      have hlen : 0 < (getProviderOrder pref env.defaultProvider).length :=
        List.length_pos.mpr hordne
      omega
    · rw [htried, List.nil_append, List.map_take]

/-- Witness for C1 on ingredients=["rice"] with every external provider
failing. -/
theorem generateRecipes_total_and_tried_w :
    ∃ recipes info st2,
      generateRecipes envFailAll ["rice"] [] false none [] = (.ok (recipes, info), st2) ∧
      recipes ≠ [] ∧
      info.providers_tried ≠ [] ∧
      ∃ k, 1 ≤ k ∧
        info.providers_tried =
          ((getProviderOrder none envFailAll.defaultProvider).map AIProvider.value).take k :=
  generateRecipes_total_and_tried.2 envFailAll ["rice"] [] false none [] (by decide)

/-- A non-mock attempt is the mapped external call. -/
lemma attemptRecipeProvider_nonmock (env : RecipeEnv) (p : AIProvider)
    (a b : List String) (c : Bool) (h : p ≠ .mock) :
    attemptRecipeProvider env p a b c =
      (env.response p).map (fun text => parseRecipeResponse text c) := by
  cases p
  case mock => exact absurd rfl h
  all_goals rfl

/-- C3 counterexample: under envEmptyGemini, Gemini returns a response that
parses to zero recipes, yet generate_recipes reports Gemini as the
SUCCESSFUL provider with no failure entry, and the recipes returned are the
built-in generator's output for the fixed ingredients ["rice", "tomatoes"],
not for the request's ingredient list ["chicken"]. -/
theorem parse_empty_counterexample :
    ((generateRecipes envEmptyGemini ["chicken"] [] false none []).1.toOption.map
      (fun r => (r.2.successful_provider, r.2.provider_statuses, r.1))) =
      some (some "gemini", [], generateMockRecipes ["rice", "tomatoes"] [] false) ∧
    generateMockRecipes ["rice", "tomatoes"] [] false ≠
      generateMockRecipes ["chicken"] [] false :=
  ⟨rfl, by decide⟩

/-- C3 amended: when a provider's response parses to zero recipes, the
PARSER ITSELF substitutes the built-in generator's recipes for the fixed
ingredient list ["rice", "tomatoes"] (not the request's ingredients), and
the driver then records that provider as the successful one — with no
failure entry and no fallback — exactly as for a normal success. -/
theorem parse_empty_fallback_amended :
    (∀ (t : String) (prem : Bool), parsedSections t prem = [] →
      parseRecipeResponse t prem = generateMockRecipes ["rice", "tomatoes"] [] prem) ∧
    (∀ (env : RecipeEnv) (pantry healthGoals : List String) (prem : Bool)
      (pref : Option String) (st : StatusMap) (p : AIProvider)
      (rest : List AIProvider) (text : String),
      pantry ≠ [] →
      getProviderOrder pref env.defaultProvider = p :: rest →
      p ≠ .mock →
      env.response p = .ok text →
      parsedSections text prem = [] →
      generateRecipes env pantry healthGoals prem pref st =
        (.ok (generateMockRecipes ["rice", "tomatoes"] [] prem,
          { providers_tried := [p.value]
            successful_provider := some p.value
            fallback_used := false
            provider_statuses := [] }),
         updateProviderStatus st p true none env.now)) := by
  have part1 : ∀ (t : String) (prem : Bool), parsedSections t prem = [] →
      parseRecipeResponse t prem = generateMockRecipes ["rice", "tomatoes"] [] prem := by
    intro t prem h
    simp [parseRecipeResponse, h]
  refine ⟨part1, ?_⟩
  intro env pantry goals prem pref st p rest text hne horder hpm hresp hsec
  have hatt : attemptRecipeProvider env p pantry goals prem =
      .ok (generateMockRecipes ["rice", "tomatoes"] [] prem) := by
    rw [attemptRecipeProvider_nonmock env p pantry goals prem hpm, hresp]
    simp [Except.map, part1 text prem hsec]
  have hE : pantry.isEmpty = false := by
    cases pantry with
    | nil => exact absurd rfl hne
    | cons a l => rfl
  simp only [generateRecipes, hE, Bool.false_eq_true, if_false, horder]
  rw [genRecipesLoop_cons_ok env pantry goals prem ((p :: rest).headD .gemini) p rest
    _ st _ hatt (generateMockRecipes_ne_nil _ _ _)]
  simp

/-- Witness for the amended C3 under envEmptyGemini. -/
theorem parse_empty_fallback_amended_w :
    generateRecipes envEmptyGemini ["chicken"] [] false none [] =
      (.ok (generateMockRecipes ["rice", "tomatoes"] [] false,
        { providers_tried := ["gemini"]
          successful_provider := some "gemini"
          fallback_used := false
          provider_statuses := [] }),
       updateProviderStatus [] .gemini true none 0) :=
  parse_empty_fallback_amended.2 envEmptyGemini ["chicken"] [] false none [] .gemini
    [.openai, .huggingface, .cohere, .mock] "" (by decide) (by decide) (by decide)
    rfl (by decide)

/-- C4 counterexample: the text "---A---B---C" has three segments that are
non-empty after stripping, but the parser produces only two recipes — it
truncates to the first three segments of the raw split (the leading empty
segment included) BEFORE discarding empty ones. -/
theorem parser_first_three_counterexample :
    ((splitDashesGo [] (lChars "---A---B---C")).filter
        (fun s => !(pyStripL s).isEmpty)).length = 3 ∧
    (parseRecipeResponse "---A---B---C" false).length = 2 := by
  decide

/-- C4 amended: the parser splits on the literal "---", keeps only the FIRST
THREE segments of the raw split (empty segments counted), discards the
whitespace-only ones among those three, and produces one record per
remaining segment in order, each taking labeled fields from its segment and
fixed defaults otherwise; a text of exactly two delimiter-separated
segments therefore yields exactly two recipes (concretely: name and origin
from labels in the first segment; the second segment gets the default
origin "Africa", and both get the default health-benefits phrase). -/
theorem parser_segments_amended :
    (∀ (t : String) (prem : Bool),
      parsedSections t prem =
        ((splitDashesGo [] t.data).take 3).filterMap (fun s =>
          if (pyStripL s).isEmpty then none
          else some (extractRecipeData (pyStripL s) prem))) ∧
    parseRecipeResponse "Recipe Name: Ugali\nOrigin: Kenya---Recipe Name: Fufu" false =
      [recipeUgali, recipeFufu] := by
  constructor
  · intro t prem
    have key : ∀ (l : List (List Char)) (acc : List Recipe),
        l.foldl (fun a s => if (pyStripL s).isEmpty then a
          else a ++ [extractRecipeData (pyStripL s) prem]) acc =
        acc ++ l.filterMap (fun s => if (pyStripL s).isEmpty then none
          else some (extractRecipeData (pyStripL s) prem)) := by
      intro l
      induction l with
      | nil => intro acc; simp
      | cons s l ih =>
        intro acc
        by_cases h : (pyStripL s).isEmpty <;>
          simp only [List.foldl_cons, List.filterMap_cons, h, if_true, if_false,
            Bool.false_eq_true, ih, List.append_assoc, List.singleton_append]
    simpa [parsedSections] using key ((splitDashesGo [] t.data).take 3) []
  · decide

/-- C5 counterexample: a chat run under chatEnvFailAll attempts Gemini (it
is in providers_tried), yet the shared provider-status map is left exactly
as it was — the chat driver never writes a status entry, so "every provider
attempted has its entry overwritten" fails for the chat driver. -/
theorem chat_status_untouched_counterexample :
    (generateChatResponse chatEnvFailAll "hello" none []).2 = ([] : StatusMap) ∧
    "gemini" ∈ (generateChatResponse chatEnvFailAll "hello" none []).1.providers_tried :=
  ⟨rfl, by decide⟩

/-- C5 amended: only the recipe driver updates the shared ProviderStatus
map, and this map is the only shared mutable state in the embedding of
either driver.  After a generate_recipes run, every attempted provider has
its entry OVERWRITTEN by this run's attempt, recording success or failure
and the error text: each provider with a recorded failure entry holds the
fresh failure record of its own message (available false, the error text,
the derived quota flag, this run's timestamp), the successful provider
holds the fresh success record (available true, no error, this run's
timestamp), every attempted provider is one of those two, and providers not
attempted keep their previous entries.  The chat driver
generate_chat_response never modifies the map at all. -/
theorem status_update_frame_amended :
    (∀ (env : ChatEnv) (prompt : String) (pref : Option String) (st : StatusMap),
      (generateChatResponse env prompt pref st).2 = st) ∧
    (∀ (env : RecipeEnv) (pantry healthGoals : List String) (prem : Bool)
      (pref : Option String) (st : StatusMap), pantry ≠ [] →
      ∃ recipes info,
        (generateRecipes env pantry healthGoals prem pref st).1 = .ok (recipes, info) ∧
        (∀ pv e, (pv, e) ∈ info.provider_statuses → ∀ q : AIProvider, q.value = pv →
          dictGet (generateRecipes env pantry healthGoals prem pref st).2 q =
            some (failureStatusRecord q e.error env.now)) ∧
        (∀ q : AIProvider, info.successful_provider = some q.value →
          dictGet (generateRecipes env pantry healthGoals prem pref st).2 q =
            some (successStatusRecord q env.now)) ∧
        (∀ q : AIProvider, q.value ∈ info.providers_tried →
          info.successful_provider = some q.value ∨
            ∃ e, (q.value, e) ∈ info.provider_statuses) ∧
        (∀ q : AIProvider, q.value ∉ info.providers_tried →
          dictGet (generateRecipes env pantry healthGoals prem pref st).2 q =
            dictGet st q)) := by
  constructor
  · intro env prompt pref st
    rfl
  · intro env pantry goals prem pref st hne
    have hmock := mem_getProviderOrder pref env.defaultProvider .mock
    have hnodup := nodup_getProviderOrder pref env.defaultProvider
    obtain ⟨recipes, info2, st2, k, hrun, hk1, htried, hmono, hA, hB, hC, hframe⟩ :=
      genRecipesLoop_status env pantry goals prem
        ((getProviderOrder pref env.defaultProvider).headD .gemini)
        (getProviderOrder pref env.defaultProvider)
        { providers_tried := [], successful_provider := none,
          fallback_used := false, provider_statuses := [] } st hmock hnodup
        (by intro pv e h; simp at h)
    have hE : pantry.isEmpty = false := by
      cases pantry with
      | nil => exact absurd rfl hne
      | cons a l => rfl
    have hgen : generateRecipes env pantry goals prem pref st = (.ok (recipes, info2), st2) := by
      simp only [generateRecipes, hE, Bool.false_eq_true, if_false]
      exact hrun
    refine ⟨recipes, info2, by rw [hgen], ?_, ?_, ?_, ?_⟩
    · intro pv e hmem q hqv
      rw [hgen]
      exact hA pv e hmem q hqv
    · intro q hq
      rw [hgen]
      exact hB q hq
    · intro q hq
      apply hC
      rwa [htried, List.nil_append] at hq
    · intro q hq
      rw [hgen]
      apply hframe
      rwa [htried, List.nil_append] at hq

/-- Witness for the amended C5 recipe-driver part under envFailAll. -/
theorem status_update_frame_amended_w :
    ∃ recipes info,
      (generateRecipes envFailAll ["rice"] [] false none []).1 = .ok (recipes, info) ∧
      (∀ pv e, (pv, e) ∈ info.provider_statuses → ∀ q : AIProvider, q.value = pv →
        dictGet (generateRecipes envFailAll ["rice"] [] false none []).2 q =
          some (failureStatusRecord q e.error envFailAll.now)) ∧
      (∀ q : AIProvider, info.successful_provider = some q.value →
        dictGet (generateRecipes envFailAll ["rice"] [] false none []).2 q =
          some (successStatusRecord q envFailAll.now)) ∧
      (∀ q : AIProvider, q.value ∈ info.providers_tried →
        info.successful_provider = some q.value ∨
          ∃ e, (q.value, e) ∈ info.provider_statuses) ∧
      (∀ q : AIProvider, q.value ∉ info.providers_tried →
        dictGet (generateRecipes envFailAll ["rice"] [] false none []).2 q =
          dictGet [] q) :=
  status_update_frame_amended.2 envFailAll ["rice"] [] false none [] (by decide)

/-- C6: in both drivers, when the first provider of the resolved order
raises, the returned metadata has fallback_used = true, reports a provider
from the rest of the order (the second-tried or later) as successful, and
at least two providers were tried.  (In the embedding some later provider
always succeeds, because the mock provider never fails.) -/
theorem fallback_flag_on_first_failure :
    (∀ (env : RecipeEnv) (pantry healthGoals : List String) (prem : Bool)
      (pref : Option String) (st : StatusMap) (p0 : AIProvider)
      (rest : List AIProvider) (e : String),
      pantry ≠ [] →
      getProviderOrder pref env.defaultProvider = p0 :: rest →
      attemptRecipeProvider env p0 pantry healthGoals prem = .error e →
      ∃ recipes info p2,
        (generateRecipes env pantry healthGoals prem pref st).1 = .ok (recipes, info) ∧
        info.fallback_used = true ∧
        p2 ∈ rest ∧
        info.successful_provider = some p2.value ∧
        2 ≤ info.providers_tried.length) ∧
    (∀ (env : ChatEnv) (prompt : String) (pref : Option String) (st : StatusMap)
      (p0 : AIProvider) (rest : List AIProvider) (e : String),
      getProviderOrder pref env.defaultProvider = p0 :: rest →
      attemptChatProvider env p0 prompt = .error e →
      ∃ p2,
        p2 ∈ rest ∧
        (generateChatResponse env prompt pref st).1.successful_provider = p2.value ∧
        (generateChatResponse env prompt pref st).1.fallback_used = true ∧
        2 ≤ (generateChatResponse env prompt pref st).1.providers_tried.length) := by
  constructor
  · intro env pantry goals prem pref st p0 rest e hne horder hAtt
    have hp0 : p0 ≠ .mock := attempt_err_ne_mock env p0 pantry goals prem e hAtt
    have hmock : AIProvider.mock ∈ rest := by
      have h1 := mem_getProviderOrder pref env.defaultProvider .mock
      rw [horder] at h1
      rcases List.mem_cons.mp h1 with hh | hh
      · exact absurd hh.symm hp0
      · exact hh
    have hp0notin : p0 ∉ rest := by
      have hnd := nodup_getProviderOrder pref env.defaultProvider
      rw [horder] at hnd
      exact (List.nodup_cons.mp hnd).1
    obtain ⟨recipes, info2, st2, k, p2, hrun, hner, hk1, hkle, htried, hpmem,
      hsucc, hfb, hsome, hframe, hinvf⟩ :=
      genRecipesLoop_master env pantry goals prem ((p0 :: rest).headD .gemini) rest
        { providers_tried := [p0.value], successful_provider := none,
          fallback_used := false,
          provider_statuses := [(p0.value, { error := e, quota_exceeded := quotaFlag e })] }
        (updateProviderStatus st p0 false (some e) env.now) hmock
        (by
          intro pv e2 hmem
          simp only [List.mem_singleton, Prod.mk.injEq] at hmem
          rw [hmem.2])
    have hE : pantry.isEmpty = false := by
      cases pantry with
      | nil => exact absurd rfl hne
      | cons a l => rfl
    have hgen : generateRecipes env pantry goals prem pref st = (.ok (recipes, info2), st2) := by
      simp only [generateRecipes, hE, Bool.false_eq_true, if_false, horder]
      rw [genRecipesLoop_cons_err env pantry goals prem ((p0 :: rest).headD .gemini)
        p0 rest _ st e hAtt]
      exact hrun
    have hp2rest : p2 ∈ rest := List.take_subset k rest hpmem
    have hp2ne : p2 ≠ p0 := fun hc => hp0notin (hc ▸ hp2rest)
    refine ⟨recipes, info2, p2, by rw [hgen], ?_, hp2rest, hsucc, ?_⟩
    · rw [hfb]
      simp only [List.headD_cons]
      exact decide_eq_true hp2ne
    · rw [htried]
      have : 1 ≤ (rest.take k).length := by
        rw [List.length_take]
        omega
      simp only [List.length_append, List.length_map, List.length_cons]
      simp at this ⊢
      omega
  · intro env prompt pref st p0 rest e horder hAtt
    have hp0 : p0 ≠ .mock := by
      intro hh
      rw [hh, attemptChatProvider_mock] at hAtt
      simp at hAtt
    have hmock : AIProvider.mock ∈ rest := by
      have h1 := mem_getProviderOrder pref env.defaultProvider .mock
      rw [horder] at h1
      rcases List.mem_cons.mp h1 with hh | hh
      · exact absurd hh.symm hp0
      · exact hh
    obtain ⟨p2, k, r, hk1, hkle, hpmem, hrun⟩ :=
      genChatLoop_master env prompt rest [p0.value] hmock
    have hres : (generateChatResponse env prompt pref st).1 =
        genChatLoop env prompt rest [p0.value] := by
      simp only [generateChatResponse, horder, genChatLoop]
      rw [hAtt]
      simp
    have hlen : 1 ≤ (rest.take k).length := by
      rw [List.length_take]
      omega
    refine ⟨p2, List.take_subset k rest hpmem, ?_, ?_, ?_⟩
    · rw [hres, hrun]
    · rw [hres, hrun]
      simp only [List.length_append, List.length_map, List.length_singleton]
      apply decide_eq_true
      omega
    · rw [hres, hrun]
      simp only [List.length_append, List.length_map, List.length_singleton]
      omega

/-- Witness for C6: under envFailAll / chatEnvFailAll the first provider
(Gemini) raises and a later provider is reported with fallback_used true. -/
theorem fallback_flag_on_first_failure_w :
    (∃ recipes info p2,
      (generateRecipes envFailAll ["rice"] [] false none []).1 = .ok (recipes, info) ∧
      info.fallback_used = true ∧
      p2 ∈ [AIProvider.openai, .huggingface, .cohere, .mock] ∧
      info.successful_provider = some p2.value ∧
      2 ≤ info.providers_tried.length) ∧
    (∃ p2,
      p2 ∈ [AIProvider.openai, .huggingface, .cohere, .mock] ∧
      (generateChatResponse chatEnvFailAll "hi" none []).1.successful_provider = p2.value ∧
      (generateChatResponse chatEnvFailAll "hi" none []).1.fallback_used = true ∧
      2 ≤ (generateChatResponse chatEnvFailAll "hi" none []).1.providers_tried.length) :=
  ⟨fallback_flag_on_first_failure.1 envFailAll ["rice"] [] false none [] .gemini
      [.openai, .huggingface, .cohere, .mock] "no api key" (by decide) (by decide) rfl,
   fallback_flag_on_first_failure.2 chatEnvFailAll "hi" none [] .gemini
      [.openai, .huggingface, .cohere, .mock] "no api key" (by decide) rfl⟩

/-- C7: nutrition parsing of "350 calories, 20g protein, 5g fiber" yields
exactly calories 350, protein "20g", fiber "5g"; on any text each key is
present iff its numeric pattern matches and absent patterns are simply
omitted; and nutrition is examined only for premium requests — a
non-premium extraction always carries no nutrition record, as do the
non-premium mock recipes. -/
theorem nutrition_parsing :
    parseNutritionL (lChars "350 calories, 20g protein, 5g fiber") =
      [("calories", JVal.num 350), ("protein", JVal.str "20g"),
       ("fiber", JVal.str "5g")] ∧
    (∀ t : List Char,
      (("calories" ∈ (parseNutritionL t).map Prod.fst) ↔
        (findNumLitGo (lChars "calorie") t).isSome = true) ∧
      (("protein" ∈ (parseNutritionL t).map Prod.fst) ↔
        (findNumOptGLitGo (lChars "protein") t).isSome = true) ∧
      (("fiber" ∈ (parseNutritionL t).map Prod.fst) ↔
        (findNumOptGLitGo (lChars "fiber") t).isSome = true)) ∧
    (∀ t : List Char, (extractRecipeData t false).nutrition_info = none) ∧
    (∀ (pantry healthGoals : List String),
      (generateMockRecipes pantry healthGoals false).map Recipe.nutrition_info =
        [none, none, none]) := by
  refine ⟨by decide, ?_, fun t => rfl, fun pantry healthGoals => by
    simp [generateMockRecipes]⟩
  intro t
  cases h1 : findNumLitGo (lChars "calorie") t <;>
    cases h2 : findNumOptGLitGo (lChars "protein") t <;>
      cases h3 : findNumOptGLitGo (lChars "fiber") t <;>
        simp [parseNutritionL, h1, h2, h3]

/-- C8: every per-provider failure entry recorded in the outcome metadata of
generate_recipes carries quota_exceeded true exactly when its own failure
message contains the substring "429" or contains "quota" case-insensitively
(the lowered message contains "quota"). -/
theorem quota_flag_recorded :
    ∀ (env : RecipeEnv) (pantry healthGoals : List String) (prem : Bool)
      (pref : Option String) (st : StatusMap) (recipes : List Recipe)
      (info : GenerationInfo) (pv : String) (e : ErrEntry),
      (generateRecipes env pantry healthGoals prem pref st).1 = .ok (recipes, info) →
      (pv, e) ∈ info.provider_statuses →
      e.quota_exceeded =
        (containsSubL (lChars "429") e.error.data ||
          containsSubL (lChars "quota") (lowerL e.error.data)) := by
  intro env pantry goals prem pref st recipes info pv e hok hmem
  by_cases hE : pantry.isEmpty
  · simp [generateRecipes, hE] at hok
  · have hE2 : pantry.isEmpty = false := by simpa using hE
    have hmock := mem_getProviderOrder pref env.defaultProvider .mock
    obtain ⟨recipes2, info2, st2, k, p, hrun, hner, hk1, hkle, htried, hpmem,
      hsucc, hfb, hsome, hframe, hinvf⟩ :=
      genRecipesLoop_master env pantry goals prem
        ((getProviderOrder pref env.defaultProvider).headD .gemini)
        (getProviderOrder pref env.defaultProvider)
        { providers_tried := [], successful_provider := none,
          fallback_used := false, provider_statuses := [] } st hmock
        (by intro pv2 e2 h; simp at h)
    have hgen : generateRecipes env pantry goals prem pref st = (.ok (recipes2, info2), st2) := by
      simp only [generateRecipes, hE2, Bool.false_eq_true, if_false]
      exact hrun
    rw [hgen] at hok
    simp only [Except.ok.injEq, Prod.mk.injEq] at hok
    have hinfo : info2 = info := hok.2
    rw [← hinfo] at hmem
    exact hinvf pv e hmem

/-- Witness for C8: the entry recorded for Gemini under env429. -/
theorem quota_flag_recorded_w :
    ErrEntry.quota_exceeded { error := "HTTP 429", quota_exceeded := true } =
      (containsSubL (lChars "429") (String.data "HTTP 429") ||
        containsSubL (lChars "quota") (lowerL (String.data "HTTP 429"))) :=
  quota_flag_recorded env429 ["rice"] [] false none []
    (generateMockRecipes ["rice"] [] false) info429 "gemini"
    { error := "HTTP 429", quota_exceeded := true } rfl (by decide)

/-- C9 counterexample: two invocations of the built-in chat generator with
the same prompt but different random draws return different texts, so the
built-in chat generator is not deterministic in the prompt. -/
theorem mock_chat_nondeterminism_counterexample :
    generateMockChat "hi" 0 ≠ generateMockChat "hi" 1 := by
  decide

set_option maxRecDepth 4000 in
/-- C9 amended: the built-in recipe generator is a total function of its
arguments (always exactly three recipes, never failing, also on an empty
ingredient list), and the built-in chat generator never fails and always
returns one of the six fixed responses, which depends only on the random
draw and not on the prompt — so equal prompts with different draws may
yield different texts. -/
theorem mock_generators_amended :
    (∀ (pantry healthGoals : List String) (prem : Bool),
      (generateMockRecipes pantry healthGoals prem).length = 3) ∧
    (∀ (prompt : String) (choice : Nat),
      generateMockChat prompt choice ∈ mockChatResponses) ∧
    (∀ (p1 p2 : String) (choice : Nat),
      generateMockChat p1 choice = generateMockChat p2 choice) := by
  refine ⟨generateMockRecipes_length, ?_, fun p1 p2 c => rfl⟩
  intro prompt choice
  have hball : ∀ k, k < mockChatResponses.length →
      mockChatResponses.getD k "" ∈ mockChatResponses := by decide
  exact hball _ (Nat.mod_lt _ (by decide))

/-- C10: the status query returns one entry per provider, keyed by the five
values in enum order, and a provider with no status record reports
available false, quota_remaining false, error "Not initialized", a null
last-checked timestamp, and the static cost, premium-only and display-name
metadata. -/
theorem provider_statuses_complete (st : StatusMap) :
    ((getProviderStatuses st).map Prod.fst =
      ["openai", "gemini", "huggingface", "cohere", "mock"]) ∧
    (∀ p : AIProvider, dictGet st p = none →
      (p.value,
        ({ available := false, quota_remaining := false,
           error := some "Not initialized", last_checked := none,
           cost_per_request_cents := providerCostCents p,
           premium_only := providerPremiumOnly p,
           display_name := titleValue p } : ProviderStatusView)) ∈
        getProviderStatuses st) := by
  constructor
  · have hfst : ∀ p, (statusEntry st p).1 = p.value := by
      intro p
      cases h : dictGet st p <;> simp [statusEntry, h]
    simp [getProviderStatuses, allProviders, hfst, AIProvider.value]
  · intro p hp
    have hentry : statusEntry st p =
        (p.value,
          ({ available := false, quota_remaining := false,
             error := some "Not initialized", last_checked := none,
             cost_per_request_cents := providerCostCents p,
             premium_only := providerPremiumOnly p,
             display_name := titleValue p } : ProviderStatusView)) := by
      simp [statusEntry, hp]
    have hmem : p ∈ allProviders := by cases p <;> decide
    exact hentry ▸ List.mem_map_of_mem (statusEntry st) hmem

/-- Witness for C10 on the empty status map at provider cohere. -/
theorem provider_statuses_complete_w :
    (AIProvider.cohere.value,
      ({ available := false, quota_remaining := false,
         error := some "Not initialized", last_checked := none,
         cost_per_request_cents := providerCostCents .cohere,
         premium_only := providerPremiumOnly .cohere,
         display_name := titleValue .cohere } : ProviderStatusView)) ∈
      getProviderStatuses [] :=
  (provider_statuses_complete []).2 .cohere rfl
